import Mathlib

/-!
Verification development for the `UploadCSVChart` React component
(`src/data-manager.tsx`): a CSV-upload / chart-rendering widget. The
component state, its event handlers and the three D3 chart renderers are
shallowly embedded below; the external collaborators (PapaParse, D3) are
embedded through their documented semantics at exactly the call sites the
component uses.
-/

set_option allowUnsafeReducibility true
attribute [local semireducible] Rat.add Rat.sub Rat.mul Rat.div Rat.inv Rat.neg Rat.blt

namespace DataManager

/-- A loosely-typed cell value as produced by PapaParse with
`dynamicTyping: true`: a number, a string, a boolean, `null`, or the
JavaScript `undefined` obtained when a row lacks the requested key.
Numbers are modelled as rationals (the data path only produces finite
numbers). -/
inductive Value where
  | num (q : ℚ)
  | str (s : String)
  | bool (b : Bool)
  | vnull
  | undef
deriving DecidableEq

/-- A parsed CSV row: an association list from column name to value, in
column order (JavaScript object property lookup returns the first match;
parsed objects have no duplicate keys). -/
abbrev Row := List (String × Value)

/-- JavaScript property access `d[field]`: the stored value, or
`undefined` when the key is absent. -/
def jsGet (r : Row) (field : String) : Value :=
  match r.find? (fun kv => kv.1 == field) with
  | some kv => kv.2
  | none => Value.undef

/-- The decimal value of a digit character, `none` on a non-digit. -/
def digitVal? (c : Char) : Option ℕ :=
  if 48 ≤ c.toNat ∧ c.toNat ≤ 57 then some (c.toNat - 48) else none

/-- The value of a non-empty all-digit character list, `none` when any
character is not a digit. -/
def digitsVal? (cs : List Char) : Option ℕ :=
  cs.foldl
    (fun acc c =>
      match acc, digitVal? c with
      | some a, some d => some (a * 10 + d)
      | _, _ => none)
    (some 0)

/-- JavaScript numeric coercion of a string (`+s`), restricted to the
integer literals exercised by this component's data path: the empty
string coerces to 0, an (optionally signed) decimal integer literal to
its value, anything else to NaN (`none`).  Per spec section 9 the
coercion policy for ambiguous values is implementation-defined by the
parsing collaborator; fractional literals are not exercised here because
`dynamicTyping` already types numeric CSV fields as numbers. -/
def strToNum? (s : String) : Option ℚ :=
  match s.data with
  | [] => some 0
  | c :: t =>
      if c = Char.ofNat 45 then
        match t with
        | [] => none
        | _ => (digitsVal? t).map (fun n => -(n : ℚ))
      else (digitsVal? (c :: t)).map (fun n => (n : ℚ))

/-- JavaScript numeric coercion `+v` (`ToNumber`); `none` stands for NaN.
`+null` is `0`, `+undefined` is NaN, `+true` is `1`, `+false` is `0`. -/
def jsToNum : Value → Option ℚ
  | Value.num q => some q
  | Value.str s => strToNum? s
  | Value.bool b => some (if b then 1 else 0)
  | Value.vnull => some 0
  | Value.undef => none

/-- The JavaScript loose test `v != null`, which is false exactly for
`null` and `undefined`. -/
def jsNonNull : Value → Bool
  | Value.vnull => false
  | Value.undef => false
  | _ => true

/-- The row filter shared by `drawLineChart` (src line 60-62) and
`drawBarChart` (src line 125-127):
`d[xField] != null && d[yField] != null && !isNaN(d[yField])`. -/
def isValidRow (xF yF : String) (r : Row) : Bool :=
  jsNonNull (jsGet r xF) && jsNonNull (jsGet r yF) && (jsToNum (jsGet r yF)).isSome

/-- `filteredData` as computed in `drawLineChart` / `drawBarChart`. -/
def filteredRows (xF yF : String) (rows : List Row) : List Row :=
  rows.filter (isValidRow xF yF)

/-- The y value a filtered row contributes: `+d[yField]`.  On rows that
pass `isValidRow` the coercion is defined, so the default is never
used. -/
def coerceY (yF : String) (r : Row) : ℚ :=
  (jsToNum (jsGet r yF)).getD 0

/-- `d3.sum(v, d => +d[yField])` over a list of values: d3's `sum` adds
`+value` whenever it is truthy, so NaN values are skipped (and zeros,
which contribute nothing to a sum, are also skipped). -/
def jsSum (vs : List Value) : ℚ :=
  vs.foldl (fun acc v =>
    match jsToNum v with
    | some q => acc + q
    | none => acc) 0

/-- One insertion step of d3's `InternMap`-based grouping: append the row
to the bucket of its key if the key is present, otherwise add a new
bucket at the end (insertion order). -/
def upsert (k : Value) (r : Row) : List (Value × List Row) → List (Value × List Row)
  | [] => [(k, [r])]
  | kv :: t => if kv.1 = k then (kv.1, kv.2 ++ [r]) :: t else kv :: upsert k r t

/-- d3's `group` mechanics: fold the rows into an insertion-ordered
multimap from key to bucket. -/
def groupsBy (key : Row → Value) (rows : List Row) : List (Value × List Row) :=
  rows.foldl (fun acc r => upsert (key r) r acc) []

/-- `d3.rollups(data, v => d3.sum(v, d => +d[yField]), d => d[xField])`
exactly as called in `drawPieChart` (src line 173-177).  Note the call
passes the raw `data`, not the filtered series. -/
def pieGroups (xF yF : String) (rows : List Row) : List (Value × ℚ) :=
  (groupsBy (fun r => jsGet r xF) rows).map
    (fun kv => (kv.1, jsSum (kv.2.map (fun r => jsGet r yF))))

/-- Specification helper: first-appearance deduplication of a key list,
relative to a list of keys already seen. -/
def firstKeysAux (seen : List Value) : List Value → List Value
  | [] => []
  | v :: t => if v ∈ seen then firstKeysAux seen t else v :: firstKeysAux (v :: seen) t

/-- Specification helper: the distinct keys of a list in order of first
appearance. -/
def firstKeys (l : List Value) : List Value :=
  firstKeysAux [] l

/-- `d3.schemeCategory10`, the fixed 10-colour scheme used by the pie
renderer (src line 184). -/
def schemeCategory10 : List String :=
  ["#1f77b4", "#ff7f0e", "#2ca02c", "#d62728", "#9467bd",
   "#8c564b", "#e377c2", "#7f7f7f", "#bcbd22", "#17becf"]

/-- `d3.scaleOrdinal(d3.schemeCategory10).domain(keys)` applied to a key:
the range colour at the key's domain index modulo the range length.  For
a key outside the preset domain, `List.indexOf` returns the domain
length, which matches d3's implicit registration of the first unknown
key at that index. -/
def ordinalColor (dom : List Value) (k : Value) : String :=
  schemeCategory10.getD (dom.indexOf k % schemeCategory10.length) ""

/-- The chart type union from src line 5; the `useState` default is
`line` (src line 12). -/
inductive ChartType where
  | line
  | pie
  | bar
deriving DecidableEq

/-- One SVG element appended into the chart area, recorded together with
the datum it is bound to: the axis groups, the line path (with the data
points fed to the line generator), one circle per filtered row, one rect
per filtered row, one pie slice per group (with its fill colour), and one
slice label per group. -/
inductive Mark where
  | axisX
  | axisY
  | linePath (pts : List (Value × ℚ))
  | point (x : Value) (y : ℚ)
  | bar (x : Value) (y : ℚ)
  | slice (k : Value) (v : ℚ) (fill : String)
  | sliceLabel (k : Value)
deriving DecidableEq

/-- `drawLineChart` (src line 54-117): filters the data, appends the x
axis group, the y axis group, one path bound to the whole filtered
series, and one circle per filtered row. -/
def drawLineMarks (xF yF : String) (rows : List Row) : List Mark :=
  let fd := filteredRows xF yF rows
  [Mark.axisX, Mark.axisY,
   Mark.linePath (fd.map (fun r => (jsGet r xF, coerceY yF r)))]
  ++ fd.map (fun r => Mark.point (jsGet r xF) (coerceY yF r))

/-- `drawBarChart` (src line 119-160): filters the data, appends the two
axis groups and one rect per filtered row. -/
def drawBarMarks (xF yF : String) (rows : List Row) : List Mark :=
  let fd := filteredRows xF yF rows
  [Mark.axisX, Mark.axisY] ++ fd.map (fun r => Mark.bar (jsGet r xF) (coerceY yF r))

/-- `drawPieChart` (src line 162-207): rolls up the raw data, then
appends one path per arc (filled from the ordinal colour scale whose
domain is the grouped keys) and one label text per arc.  `d3.pie`
returns its arcs in input-data order, so slices appear in group
first-appearance order. -/
def drawPieMarks (xF yF : String) (rows : List Row) : List Mark :=
  let gs := pieGroups xF yF rows
  let dom := gs.map Prod.fst
  gs.map (fun kv => Mark.slice kv.1 kv.2 (ordinalColor dom kv.1))
  ++ gs.map (fun kv => Mark.sliceLabel kv.1)

/-- The component state (src line 8-14).  `svg` is the chart area:
`none` when the conditional block `columns.length > 0 && ...` is not
rendered (the `<svg>` element is unmounted), `some ms` when it is
mounted and holds the listed marks. -/
structure AppState where
  data : List Row
  columns : List String
  xField : String
  yField : String
  chartType : ChartType
  showModal : Bool
  svg : Option (List Mark)
deriving DecidableEq

/-- The initial state: empty dataset and columns, empty field
selections, chart type `line`, modal closed, chart area unmounted. -/
def initState : AppState :=
  { data := [], columns := [], xField := "", yField := "",
    chartType := ChartType.line, showModal := false, svg := none }

/-- The `complete` callback of `Papa.parse` inside `handleFile`
(src line 24-34): zero rows clear `data` and `columns` and return early
(field selections untouched); otherwise `data`, `columns` (the keys of
the first row) are set and both field selections are reset to empty.
`chartType` is not touched in either branch. -/
def parseComplete (rows : List Row) (s : AppState) : AppState :=
  match rows with
  | [] => { s with data := [], columns := [] }
  | r :: _ =>
      { s with data := rows, columns := r.map Prod.fst, xField := "", yField := "" }

/-- React's commit of the JSX tree: when `columns` is empty the block
containing the `<svg>` is not rendered, so the chart area unmounts
(its DOM contents are destroyed); when it becomes non-empty a fresh
empty `<svg>` mounts.  A mounted chart area keeps its contents across
re-renders. -/
def mountAdjust (s : AppState) : AppState :=
  if s.columns.isEmpty then { s with svg := none }
  else
    match s.svg with
    | none => { s with svg := some [] }
    | some _ => s

/-- Dispatch on `chartType` inside the render effect (src line 45-47). -/
def drawChart (s : AppState) : List Mark :=
  match s.chartType with
  | ChartType.line => drawLineMarks s.xField s.yField s.data
  | ChartType.bar => drawBarMarks s.xField s.yField s.data
  | ChartType.pie => drawPieMarks s.xField s.yField s.data

/-- The render effect (src line 41-48):
`if (!data.length || !xField || !yField) return;` then
`d3.select(chartRef.current).selectAll(asterisk).remove()` and a draw
call.  When the guard fails the effect returns without touching the
chart area.  When the `<svg>` is unmounted (`chartRef.current` null) the
removal is a no-op on an empty selection and each draw function returns
early, so the state is also unchanged.  Otherwise the prior contents are
removed and exactly the fresh drawing remains. -/
def renderEffect (s : AppState) : AppState :=
  if s.data.isEmpty || s.xField == "" || s.yField == "" then s
  else
    match s.svg with
    | none => s
    | some _ => { s with svg := some (drawChart s) }

/-- The user-driven events of the component: a file-selection change
(carrying the parse result of the chosen file, or `none` when the file
list is empty so that `handleFile` returns at src line 18), the three
dropdown changes, and the modal open/close clicks. -/
inductive Event where
  | fileSelected (res : Option (List Row))
  | selectX (f : String)
  | selectY (f : String)
  | selectChart (t : ChartType)
  | openModal
  | closeModal

/-- One synchronous event-handling step: run the handler's state update,
commit the JSX tree (mount or unmount the chart area), then run the
render effect.  The effect's dependency array is
`[data, chartType, xField, yField]`; on a file selection the `data`
array is a fresh reference so the effect always re-runs, and on the
other events running it when the dependencies are unchanged is the
identity, so the model runs it after every state update. -/
def step (e : Event) (s : AppState) : AppState :=
  match e with
  | Event.fileSelected none => s
  | Event.fileSelected (some rows) => renderEffect (mountAdjust (parseComplete rows s))
  | Event.selectX f => renderEffect (mountAdjust { s with xField := f })
  | Event.selectY f => renderEffect (mountAdjust { s with yField := f })
  | Event.selectChart t => renderEffect (mountAdjust { s with chartType := t })
  | Event.openModal => renderEffect (mountAdjust { s with showModal := true })
  | Event.closeModal => renderEffect (mountAdjust { s with showModal := false })

/-- The geometry visible in the chart area: nothing when the `<svg>` is
unmounted, its marks when mounted. -/
def visibleMarks (s : AppState) : List Mark :=
  match s.svg with
  | none => []
  | some ms => ms

/-- Floor of the base-10 logarithm of a natural number, with fuel (the
number itself is always enough fuel). -/
def log10fuel : ℕ → ℕ → ℕ
  | 0, _ => 0
  | fuel + 1, n => if n < 10 then 0 else log10fuel fuel (n / 10) + 1

/-- Ceiling of the base-10 logarithm of a natural number, with fuel. -/
def clog10fuel : ℕ → ℕ → ℕ
  | 0, _ => 0
  | fuel + 1, n => if n ≤ 1 then 0 else clog10fuel fuel ((n + 9) / 10) + 1

/-- `Math.floor(Math.log(q) / Math.LN10)` for a positive rational:
the exact floor of the base-10 logarithm. -/
def intLog10 (q : ℚ) : ℤ :=
  if 1 ≤ q then (log10fuel (Nat.floor q) (Nat.floor q) : ℤ)
  else -(clog10fuel (Nat.ceil q⁻¹) (Nat.ceil q⁻¹) : ℤ)

/-- `Math.pow(10, p)` for an integer exponent, over ℚ. -/
def pow10 (p : ℤ) : ℚ :=
  if 0 ≤ p then ((10 : ℚ) ^ p.toNat) else 1 / (10 : ℚ) ^ (-p).toNat

/-- d3's `tickIncrement(start, stop, count)` for `start < stop`: the
tick step is a power of ten times 1, 2, 5 or 10, chosen by comparing
`step / 10^power` against the square roots of 50, 10 and 2 (compared
here by squaring, which is exact over ℚ).  d3 returns the reciprocal
case as a negative number purely for floating-point exactness; both
cases round the domain to multiples of the positive increment returned
here. -/
def tickIncr (start stop : ℚ) (count : ℕ) : ℚ :=
  (if 50 ≤ ((stop - start) / count / pow10 (intLog10 ((stop - start) / count))) ^ 2 then 10
   else if 10 ≤ ((stop - start) / count / pow10 (intLog10 ((stop - start) / count))) ^ 2 then 5
   else if 2 ≤ ((stop - start) / count / pow10 (intLog10 ((stop - start) / count))) ^ 2 then 2
   else (1 : ℚ))
  * pow10 (intLog10 ((stop - start) / count))

/-- Round down to a multiple of the increment:
`Math.floor(start / step) * step`. -/
def ratFloorMul (a q : ℚ) : ℚ :=
  (⌊a / q⌋ : ℚ) * q

/-- Round up to a multiple of the increment:
`Math.ceil(stop / step) * step`. -/
def ratCeilMul (a q : ℚ) : ℚ :=
  (⌈a / q⌉ : ℚ) * q

/-- The iteration inside d3's `nice(count)` (maxIter = 10): recompute
the tick increment, stop once it is stable and write the rounded bounds
back into the domain (restoring the original orientation when the
domain was reversed), otherwise round the working bounds outward and
repeat.  If the fuel runs out, or the working bounds are degenerate
(d3's step becomes NaN or infinite and the loop breaks without writing),
the domain is left as it was. -/
def niceLoop (fuel : ℕ) (d0 d1 start stop : ℚ) (swapped : Bool)
    (prestep : Option ℚ) : ℚ × ℚ :=
  match fuel with
  | 0 => (d0, d1)
  | fuel + 1 =>
      if stop ≤ start then (d0, d1)
      else if prestep = some (tickIncr start stop 10) then
        if swapped then (stop, start) else (start, stop)
      else
        niceLoop fuel d0 d1 (ratFloorMul start (tickIncr start stop 10))
          (ratCeilMul stop (tickIncr start stop 10)) swapped
          (some (tickIncr start stop 10))

/-- `scaleLinear().domain([x0, x1]).nice()` with the default tick count
of 10: the niced domain.  A reversed domain is swapped for the loop and
swapped back on exit; an empty-extent domain is returned unchanged
(d3's tick step degenerates and the loop breaks without writing). -/
def niceDomain (x0 x1 : ℚ) : ℚ × ℚ :=
  if x1 < x0 then niceLoop 10 x0 x1 x1 x0 true none
  else if x0 < x1 then niceLoop 10 x0 x1 x0 x1 false none
  else (x0, x1)

/-- `yValues = filteredData.map(d => +d[yField])` (src line 76 and 135). -/
def yValuesOf (xF yF : String) (rows : List Row) : List ℚ :=
  (filteredRows xF yF rows).map (coerceY yF)

/-- `d3.max(yValues) ?? 0`: the maximum of the list, `0` when it is
empty (on the filtered series every value is a number, so d3's
NaN-skipping never fires). -/
def d3Max (ys : List ℚ) : ℚ :=
  match ys with
  | [] => 0
  | y :: t => t.foldl max y

/-- The y scale's domain as constructed identically in `drawLineChart`
(src line 77-79) and `drawBarChart` (src line 136-138):
`scaleLinear().domain([0, d3.max(yValues) ?? 0]).nice()`. -/
def yScaleDomain (xF yF : String) (rows : List Row) : ℚ × ℚ :=
  niceDomain 0 (d3Max (yValuesOf xF yF rows))

/-! Concrete inputs used by the counterexamples and witnesses below. -/

/-- A valid row: x = "a", y = 1. -/
def rowA : Row := [("x", Value.str "a"), ("y", Value.num 1)]

/-- A valid row: x = "b", y = 2. -/
def rowB : Row := [("x", Value.str "b"), ("y", Value.num 2)]

/-- A row whose y value "abc" fails numeric coercion. -/
def rowBad : Row := [("x", Value.str "b"), ("y", Value.str "abc")]

/-- A valid row with the negative y value -5.3. -/
def rowNeg : Row := [("x", Value.str "a"), ("y", Value.num ((-53 : ℚ)/10))]

/-- The spec's y-scale example: valid rows with y values 0, 5, 10. -/
def rows3 : List Row :=
  [[("x", Value.str "a"), ("y", Value.num 0)],
   [("x", Value.str "b"), ("y", Value.num 5)],
   [("x", Value.str "c"), ("y", Value.num 10)]]

/-- The spec's pie-aggregation example:
rows [(cat:"a", v:1), (cat:"a", v:2), (cat:"b", v:3)]. -/
def exampleRows : List Row :=
  [[("cat", Value.str "a"), ("v", Value.num 1)],
   [("cat", Value.str "a"), ("v", Value.num 2)],
   [("cat", Value.str "b"), ("v", Value.num 3)]]

/-- Eleven rows with eleven distinct x categories. -/
def elevenRows : List Row :=
  [[("x", Value.str "a"), ("y", Value.num 1)],
   [("x", Value.str "b"), ("y", Value.num 1)],
   [("x", Value.str "c"), ("y", Value.num 1)],
   [("x", Value.str "d"), ("y", Value.num 1)],
   [("x", Value.str "e"), ("y", Value.num 1)],
   [("x", Value.str "f"), ("y", Value.num 1)],
   [("x", Value.str "g"), ("y", Value.num 1)],
   [("x", Value.str "h"), ("y", Value.num 1)],
   [("x", Value.str "i"), ("y", Value.num 1)],
   [("x", Value.str "j"), ("y", Value.num 1)],
   [("x", Value.str "k"), ("y", Value.num 1)]]

/-- A reachable state in which a line chart for `rowA` is rendered:
load a one-row file, then select both fields. -/
def chartedState : AppState :=
  step (Event.selectY "y")
    (step (Event.selectX "x")
      (step (Event.fileSelected (some [rowA])) initState))

/-- The state after selecting a new file (parsing to `[rowB]`) while the
`rowA` chart is displayed. -/
def reloadedState : AppState :=
  step (Event.fileSelected (some [rowB])) chartedState

/-- A trace that sets the chart type to `bar` and then loads a new
file. -/
def barReloadState : AppState :=
  step (Event.fileSelected (some [rowB]))
    (step (Event.selectChart ChartType.bar)
      (step (Event.fileSelected (some [rowA])) initState))

/-- A state with non-empty data, both fields selected and a mounted
chart area holding one stale mark. -/
def stubState : AppState :=
  { data := [rowA], columns := ["x", "y"], xField := "x", yField := "y",
    chartType := ChartType.line, showModal := false, svg := some [Mark.axisX] }

/-- A state with an empty dataset but a stale mark still mounted. -/
def staleState : AppState :=
  { data := [], columns := ["x"], xField := "x", yField := "y",
    chartType := ChartType.line, showModal := false, svg := some [Mark.axisX] }
/-! Helper lemmas shared by the claim theorems. -/

/-- Committing the JSX tree only touches the chart area. -/
theorem mountAdjust_svg_only (s : AppState) : ∃ v, mountAdjust s = { s with svg := v } := by
  unfold mountAdjust
  split
  · exact ⟨none, rfl⟩
  · split
    · exact ⟨some [], rfl⟩
    · exact ⟨s.svg, rfl⟩

/-- The render effect only touches the chart area. -/
theorem renderEffect_svg_only (s : AppState) : ∃ v, renderEffect s = { s with svg := v } := by
  unfold renderEffect
  split
  · exact ⟨s.svg, rfl⟩
  · split
    · exact ⟨s.svg, rfl⟩
    · exact ⟨some (drawChart s), rfl⟩

theorem mountAdjust_xField (s : AppState) : (mountAdjust s).xField = s.xField := by
  obtain ⟨v, h⟩ := mountAdjust_svg_only s
  rw [h]

theorem mountAdjust_yField (s : AppState) : (mountAdjust s).yField = s.yField := by
  obtain ⟨v, h⟩ := mountAdjust_svg_only s
  rw [h]

theorem mountAdjust_chartType (s : AppState) : (mountAdjust s).chartType = s.chartType := by
  obtain ⟨v, h⟩ := mountAdjust_svg_only s
  rw [h]

theorem renderEffect_xField (s : AppState) : (renderEffect s).xField = s.xField := by
  obtain ⟨v, h⟩ := renderEffect_svg_only s
  rw [h]

theorem renderEffect_yField (s : AppState) : (renderEffect s).yField = s.yField := by
  obtain ⟨v, h⟩ := renderEffect_svg_only s
  rw [h]

theorem renderEffect_chartType (s : AppState) : (renderEffect s).chartType = s.chartType := by
  obtain ⟨v, h⟩ := renderEffect_svg_only s
  rw [h]

/-! The claim theorems. -/

/-- C9: if the file-selection change event carries no file, `handleFile`
returns at src line 18 before parsing, so the whole component state —
dataset, columns, xField, yField, chartType (and the modal flag and the
chart area) — is left unchanged. -/
theorem c9_no_file_frame (s : AppState) :
    step (Event.fileSelected none) s = s := rfl

/-- C5: when parsing a file yields zero rows, the dataset and the column
set are reset to empty, and the chart area shows no geometry: `columns`
being empty unmounts the conditional block holding the `<svg>`.  The
handler and the effect are total functions here — an empty state, not a
failure state. -/
theorem c5_zero_rows_clears (s : AppState) :
    (step (Event.fileSelected (some [])) s).data = [] ∧
    (step (Event.fileSelected (some [])) s).columns = [] ∧
    visibleMarks (step (Event.fileSelected (some [])) s) = [] := by
  simp [step, parseComplete, mountAdjust, renderEffect, visibleMarks]

/-- C4: chart rendering never proceeds unless the dataset is non-empty
and both fields are selected: whenever the guard
`!data.length || !xField || !yField` fires, the render effect is the
identity — no geometry is drawn and the chart area is untouched. -/
theorem c4_render_guard (s : AppState)
    (h : s.data = [] ∨ s.xField = "" ∨ s.yField = "") :
    renderEffect s = s := by
  have hc : (s.data.isEmpty || s.xField == "" || s.yField == "") = true := by
    rcases h with h | h | h <;> simp [h]
  unfold renderEffect
  rw [if_pos hc]

/-- Witness for C4 at a concrete state with an empty dataset (and a
stale mark in the chart area, which the guard leaves in place). -/
theorem c4_render_guard_witness :
    (staleState.data = [] ∨ staleState.xField = "" ∨ staleState.yField = "") ∧
    renderEffect staleState = staleState :=
  ⟨Or.inl rfl, c4_render_guard staleState (Or.inl rfl)⟩

/-- C3 counterexample: the claim says loading a new file resets the whole
selection triple, chartType included, to its defaults; but `handleFile`
(src line 24-34) never writes `chartType`.  Concretely: set the chart
type to `bar`, load a new file — the chart type is still `bar`, not the
default `line`. -/
theorem c3_chart_type_kept_counterexample :
    initState.chartType = ChartType.line ∧
    barReloadState.chartType = ChartType.bar ∧
    ChartType.bar ≠ ChartType.line := by decide

/-- C3 (amended): loading a new file that parses to at least one row
resets xField and yField to empty but leaves chartType unchanged; a file
parsing to zero rows resets none of the three (the zero-row branch
returns before the field resets). -/
theorem c3_fields_reset_chart_type_kept (s : AppState) (r : Row) (rs : List Row) :
    (step (Event.fileSelected (some (r :: rs))) s).xField = "" ∧
    (step (Event.fileSelected (some (r :: rs))) s).yField = "" ∧
    (step (Event.fileSelected (some (r :: rs))) s).chartType = s.chartType ∧
    (step (Event.fileSelected (some [])) s).xField = s.xField ∧
    (step (Event.fileSelected (some [])) s).yField = s.yField ∧
    (step (Event.fileSelected (some [])) s).chartType = s.chartType := by
  refine ⟨?_, ?_, ?_, ?_, ?_, ?_⟩ <;>
    simp [step, renderEffect_xField, renderEffect_yField, renderEffect_chartType,
      mountAdjust_xField, mountAdjust_yField, mountAdjust_chartType, parseComplete]

/-- C2 counterexample: with the `rowA` line chart rendered, selecting a
new file (parsing to `[rowB]`) resets the field selections, so the
render effect's guard fires and the effect returns without removing the
old chart: the chart area still shows the full geometry drawn from
`rowA` although the dataset is now `[rowB]`.  The old chart is not
discarded when the new parse completes. -/
theorem c2_stale_chart_counterexample :
    visibleMarks reloadedState =
      [Mark.axisX, Mark.axisY, Mark.linePath [(Value.str "a", 1)],
       Mark.point (Value.str "a") 1] ∧
    reloadedState.data = [rowB] ∧
    visibleMarks reloadedState ≠ [] := by decide

/-- C2 (amended): selecting a new file does not immediately discard the
previously rendered chart; the old geometry persists until the first
render pass whose guard passes (non-empty data, both fields selected),
and that pass removes every prior mark before drawing, so the chart area
then holds exactly the fresh drawing. -/
theorem c2_clear_on_successful_render (s : AppState) (m : List Mark)
    (hd : s.data ≠ []) (hx : s.xField ≠ "") (hy : s.yField ≠ "")
    (hm : s.svg = some m) :
    (renderEffect s).svg = some (drawChart s) := by
  have hc : (s.data.isEmpty || s.xField == "" || s.yField == "") = false := by
    simp [hd, hx, hy]
  unfold renderEffect
  rw [if_neg (by simp [hc])]
  rw [hm]

/-- Witness for C2 (amended) at a concrete state holding a stale mark. -/
theorem c2_clear_on_successful_render_witness :
    (stubState.data ≠ [] ∧ stubState.xField ≠ "" ∧ stubState.yField ≠ "" ∧
      stubState.svg = some [Mark.axisX]) ∧
    (renderEffect stubState).svg = some (drawChart stubState) :=
  ⟨⟨by decide, by decide, by decide, rfl⟩,
   c2_clear_on_successful_render stubState [Mark.axisX]
     (by decide) (by decide) (by decide) rfl⟩

/-- C8 counterexample: with a dataset whose only row fails the numeric
filter, the filtered series is empty, yet `drawLineChart` still appends
geometry: the two axis groups and the (empty) line path.  The chart
area does not stay empty. -/
theorem c8_axes_counterexample :
    filteredRows "x" "y" [rowBad] = [] ∧
    drawLineMarks "x" "y" [rowBad] =
      [Mark.axisX, Mark.axisY, Mark.linePath []] ∧
    drawLineMarks "x" "y" [rowBad] ≠ [] := by decide

/-- C8 (amended): when the filtered series is empty, the line and bar
renderers draw no data geometry — no circles, no bars, and a line path
with no points — and rendering is a total function (no crash); but the
axis scaffolding is still appended.  (The pie renderer is not governed
by this filter at all: it aggregates the unfiltered dataset.) -/
theorem c8_no_data_marks (xF yF : String) (rows : List Row)
    (h : filteredRows xF yF rows = []) :
    drawLineMarks xF yF rows = [Mark.axisX, Mark.axisY, Mark.linePath []] ∧
    drawBarMarks xF yF rows = [Mark.axisX, Mark.axisY] := by
  simp [drawLineMarks, drawBarMarks, h]

/-- Witness for C8 (amended) at the concrete one-invalid-row dataset. -/
theorem c8_no_data_marks_witness :
    filteredRows "x" "y" [rowBad] = [] ∧
    (drawLineMarks "x" "y" [rowBad] =
      [Mark.axisX, Mark.axisY, Mark.linePath []] ∧
     drawBarMarks "x" "y" [rowBad] = [Mark.axisX, Mark.axisY]) :=
  ⟨by decide, c8_no_data_marks "x" "y" [rowBad] (by decide)⟩

/-- C1 (code bug evidence): the row (x:"b", y:"abc") fails the numeric
filter, so line and bar exclude it; but `drawPieChart` passes the raw
dataset to `d3.rollups` (src line 173-177), so the same row still
contributes a group: the pie renders a zero-valued slice and a label for
"b".  The pie's series is not restricted to rows passing the filter, as
the claim and spec require. -/
theorem c1_pie_unfiltered_eval :
    filteredRows "x" "y" [rowA, rowBad] = [rowA] ∧
    pieGroups "x" "y" [rowA, rowBad] = [(Value.str "a", 1), (Value.str "b", 0)] ∧
    Mark.sliceLabel (Value.str "b") ∈ drawPieMarks "x" "y" [rowA, rowBad] := by decide

/-! Characterization of the d3 grouping fold. -/

/-- A key produced by `firstKeysAux` was not among the already-seen
keys. -/
theorem not_mem_seen_of_mem_firstKeysAux (seen l : List Value) (v : Value)
    (h : v ∈ firstKeysAux seen l) : v ∉ seen := by
  induction l generalizing seen with
  | nil => simp [firstKeysAux] at h
  | cons x t ih =>
      simp only [firstKeysAux] at h
      by_cases hx : x ∈ seen
      · rw [if_pos hx] at h
        exact ih seen h
      · rw [if_neg hx] at h
        rcases List.mem_cons.mp h with he | hm
        · subst he; exact hx
        · intro hv
          exact (ih (x :: seen) hm) (List.mem_cons_of_mem x hv)

/-- `firstKeysAux` only consults the seen list through membership. -/
theorem firstKeysAux_congr (s1 s2 l : List Value)
    (h : ∀ x, x ∈ s1 ↔ x ∈ s2) : firstKeysAux s1 l = firstKeysAux s2 l := by
  induction l generalizing s1 s2 with
  | nil => rfl
  | cons x t ih =>
      simp only [firstKeysAux]
      by_cases hx : x ∈ s1
      · rw [if_pos hx, if_pos ((h x).mp hx)]
        exact ih s1 s2 h
      · rw [if_neg hx, if_neg (fun hx2 => hx ((h x).mpr hx2))]
        rw [ih (x :: s1) (x :: s2) (fun y => by simp [h y])]

/-- First-appearance deduplication produces a duplicate-free list. -/
theorem firstKeysAux_nodup (seen l : List Value) : (firstKeysAux seen l).Nodup := by
  induction l generalizing seen with
  | nil => exact List.nodup_nil
  | cons x t ih =>
      simp only [firstKeysAux]
      by_cases hx : x ∈ seen
      · rw [if_pos hx]; exact ih seen
      · rw [if_neg hx]
        refine List.nodup_cons.mpr ⟨?_, ih (x :: seen)⟩
        intro hmem
        exact (not_mem_seen_of_mem_firstKeysAux (x :: seen) t x hmem)
          (List.mem_cons_self x seen)

/-- Inserting an already-present key does not change the key list. -/
theorem upsert_keys_of_mem (k : Value) (r : Row) (acc : List (Value × List Row))
    (h : k ∈ acc.map Prod.fst) :
    (upsert k r acc).map Prod.fst = acc.map Prod.fst := by
  induction acc with
  | nil => simp at h
  | cons kv t ih =>
      simp only [upsert]
      by_cases hk : kv.1 = k
      · rw [if_pos hk]; simp
      · rw [if_neg hk]
        have ht : k ∈ t.map Prod.fst := by
          simp only [List.map_cons, List.mem_cons] at h
          exact h.resolve_left (fun e => hk e.symm)
        simp [ih ht]

/-- Inserting a fresh key appends its bucket at the end. -/
theorem upsert_of_not_mem (k : Value) (r : Row) (acc : List (Value × List Row))
    (h : k ∉ acc.map Prod.fst) :
    upsert k r acc = acc ++ [(k, [r])] := by
  induction acc with
  | nil => rfl
  | cons kv t ih =>
      simp only [List.map_cons, List.mem_cons, not_or] at h
      simp only [upsert]
      rw [if_neg (fun e => h.1 e.symm), ih h.2]
      rfl

/-- Inserting a present key (keys duplicate-free) appends the row to
exactly its bucket. -/
theorem upsert_of_mem_nodup (k : Value) (r : Row) (acc : List (Value × List Row))
    (h : k ∈ acc.map Prod.fst) (hnd : (acc.map Prod.fst).Nodup) :
    upsert k r acc
      = acc.map (fun kv => if kv.1 = k then (kv.1, kv.2 ++ [r]) else kv) := by
  induction acc with
  | nil => simp at h
  | cons kv t ih =>
      simp only [List.map_cons, List.nodup_cons] at hnd
      simp only [List.map_cons, List.mem_cons] at h
      simp only [upsert, List.map_cons]
      by_cases hk : kv.1 = k
      · rw [if_pos hk, if_pos hk]
        have h4 : ∀ kv2 ∈ t, (if kv2.1 = k then (kv2.1, kv2.2 ++ [r]) else kv2) = id kv2 := by
          intro kv2 h2
          have hne : kv2.1 ≠ k := by
            intro e
            exact hnd.1 (hk ▸ e ▸ List.mem_map_of_mem Prod.fst h2)
          rw [if_neg hne]
          rfl
        rw [List.map_congr_left h4, List.map_id]
      · rw [if_neg hk, if_neg hk]
        have ht : k ∈ t.map Prod.fst := (h.resolve_left (fun e => hk e.symm))
        rw [ih ht hnd.2]

/-- Keeping only the rows whose key equals `k`, a matching head row is
kept. -/
theorem filter_cons_key_eq (key : Row → Value) (r : Row) (t : List Row) (k : Value)
    (h : key r = k) :
    (r :: t).filter (fun x => key x = k) = r :: t.filter (fun x => key x = k) := by
  simp [List.filter_cons, h]

/-- Keeping only the rows whose key equals `k`, a non-matching head row
is dropped. -/
theorem filter_cons_key_ne (key : Row → Value) (r : Row) (t : List Row) (k : Value)
    (h : key r ≠ k) :
    (r :: t).filter (fun x => key x = k) = t.filter (fun x => key x = k) := by
  simp [List.filter_cons, h]

/-- The d3 grouping fold, characterized: starting from an accumulator
with duplicate-free keys, it extends each existing bucket with the
matching remaining rows and appends one bucket per fresh key in first
appearance order. -/
theorem foldl_upsert (key : Row → Value) (rows : List Row) :
    ∀ acc : List (Value × List Row), ((acc.map Prod.fst).Nodup) →
      rows.foldl (fun a r => upsert (key r) r a) acc
        = acc.map (fun kv => (kv.1, kv.2 ++ rows.filter (fun r => key r = kv.1)))
          ++ (firstKeysAux (acc.map Prod.fst) (rows.map key)).map
              (fun k => (k, rows.filter (fun r => key r = k))) := by
  induction rows with
  | nil =>
      intro acc _
      simp [firstKeysAux]
  | cons r t ih =>
      intro acc hnd
      rw [List.foldl_cons]
      by_cases hmem : key r ∈ acc.map Prod.fst
      · have hnd2 : ((upsert (key r) r acc).map Prod.fst).Nodup := by
          rw [upsert_keys_of_mem (key r) r acc hmem]; exact hnd
        rw [ih (upsert (key r) r acc) hnd2,
          upsert_keys_of_mem (key r) r acc hmem,
          upsert_of_mem_nodup (key r) r acc hmem hnd]
        rw [List.map_cons,
          show firstKeysAux (acc.map Prod.fst) (key r :: t.map key)
              = firstKeysAux (acc.map Prod.fst) (t.map key) from by
            simp [firstKeysAux, hmem]]
        congr 1
        · rw [List.map_map]
          refine List.map_congr_left ?_
          intro kv hkv
          by_cases hk : kv.1 = key r
          · simp only [Function.comp_apply, if_pos hk]
            rw [filter_cons_key_eq key r t kv.1 hk.symm, List.append_assoc]
            rfl
          · simp only [Function.comp_apply, if_neg hk]
            rw [filter_cons_key_ne key r t kv.1 (fun e => hk e.symm)]
        · refine List.map_congr_left ?_
          intro k hk
          have hkne : key r ≠ k := by
            intro e
            exact (not_mem_seen_of_mem_firstKeysAux _ _ _ hk) (e ▸ hmem)
          rw [filter_cons_key_ne key r t k hkne]
      · have hkeys : (upsert (key r) r acc).map Prod.fst = acc.map Prod.fst ++ [key r] := by
          rw [upsert_of_not_mem (key r) r acc hmem]; simp
        have hnd2 : ((upsert (key r) r acc).map Prod.fst).Nodup := by
          rw [hkeys]
          simp [List.nodup_append, hnd, hmem]
        rw [ih (upsert (key r) r acc) hnd2, hkeys,
          upsert_of_not_mem (key r) r acc hmem]
        simp only [List.map_append, List.map_cons, List.map_nil, List.append_nil]
        rw [show firstKeysAux (acc.map Prod.fst) (key r :: List.map key t)
              = key r :: firstKeysAux (key r :: acc.map Prod.fst) (List.map key t) from by
            simp [firstKeysAux, hmem]]
        simp only [List.map_cons]
        rw [List.append_assoc, List.singleton_append]
        congr 1
        · refine List.map_congr_left ?_
          intro kv hkv
          have hne : key r ≠ kv.1 := by
            intro e
            exact hmem (e ▸ List.mem_map_of_mem Prod.fst hkv)
          rw [filter_cons_key_ne key r t kv.1 hne]
        · congr 1
          · rw [filter_cons_key_eq key r t (key r) rfl]
            rfl
          · rw [firstKeysAux_congr (acc.map Prod.fst ++ [key r])
              (key r :: acc.map Prod.fst) (List.map key t) (fun x => by simp [or_comm])]
            refine List.map_congr_left ?_
            intro k hk
            have hkne : key r ≠ k := by
              intro e
              exact (not_mem_seen_of_mem_firstKeysAux _ _ _ hk)
                (e ▸ List.mem_cons_self _ _)
            rw [filter_cons_key_ne key r t k hkne]

/-- d3's grouping: one bucket per distinct key, in first-appearance
order, each bucket holding exactly its rows in input order. -/
theorem groupsBy_eq (key : Row → Value) (rows : List Row) :
    groupsBy key rows
      = (firstKeys (rows.map key)).map
          (fun k => (k, rows.filter (fun r => key r = k))) := by
  have h := foldl_upsert key rows [] (by simp)
  simpa [groupsBy, firstKeys] using h

/-- The pie rollup: one entry per distinct x value, in first-appearance
order, whose value is the d3 sum of its group's y values. -/
theorem pieGroups_eq (xF yF : String) (rows : List Row) :
    pieGroups xF yF rows
      = (firstKeys (rows.map (fun r => jsGet r xF))).map
          (fun k => (k,
            jsSum ((rows.filter (fun r => jsGet r xF = k)).map (fun r => jsGet r yF)))) := by
  rw [pieGroups, groupsBy_eq, List.map_map]
  rfl

/-- The pie rollup's keys are exactly the distinct x values in
first-appearance order. -/
theorem pieKeys_eq (xF yF : String) (rows : List Row) :
    (pieGroups xF yF rows).map Prod.fst
      = firstKeys (rows.map (fun r => jsGet r xF)) := by
  rw [pieGroups_eq, List.map_map]
  exact List.map_id _

/-- The pie rollup lists each category exactly once. -/
theorem pieKeys_nodup (xF yF : String) (rows : List Row) :
    ((pieGroups xF yF rows).map Prod.fst).Nodup := by
  rw [pieKeys_eq]
  exact firstKeysAux_nodup [] _

/-- C7: grouping on xField and summing yField per group yields one entry
per distinct xField value, in order of first appearance, each listed
exactly once, with value the sum of the group's coerced yField values
(d3's sum, which skips values that fail coercion); on the spec's example
rows the result is exactly the two groups a = 3 and b = 3, each once. -/
theorem c7_pie_aggregation (xF yF : String) (rows : List Row) :
    pieGroups xF yF rows
      = (firstKeys (rows.map (fun r => jsGet r xF))).map
          (fun k => (k,
            jsSum ((rows.filter (fun r => jsGet r xF = k)).map (fun r => jsGet r yF)))) ∧
    ((pieGroups xF yF rows).map Prod.fst).Nodup ∧
    pieGroups "cat" "v" exampleRows = [(Value.str "a", 3), (Value.str "b", 3)] :=
  ⟨pieGroups_eq xF yF rows, pieKeys_nodup xF yF rows, by decide⟩

/-- In a duplicate-free list, the index of the i-th element is i. -/
theorem indexOf_get_of_nodup {l : List Value} (hnd : l.Nodup) (i : Fin l.length) :
    l.indexOf (l.get i) = i.1 := by
  have hm : l.get i ∈ l := l.get_mem i.1 i.2
  have hlt : l.indexOf (l.get i) < l.length := List.indexOf_lt_length.mpr hm
  have he : l.get ⟨l.indexOf (l.get i), hlt⟩ = l.get i := List.indexOf_get hlt
  have h2 := (List.Nodup.get_inj_iff hnd).mp he
  exact congrArg Fin.val h2

/-- C10: pie slice colours come from the fixed 10-colour scheme indexed
by domain position modulo 10, the domain being the grouped keys in first
appearance order; with more than 10 grouped categories, two distinct
categories (the 1st and the 11th) receive the same fill colour. -/
theorem c10_pie_colors_cycle (xF yF : String) (rows : List Row)
    (h : 10 < ((pieGroups xF yF rows).map Prod.fst).length) :
    ∃ k1 k2,
      k1 ∈ (pieGroups xF yF rows).map Prod.fst ∧
      k2 ∈ (pieGroups xF yF rows).map Prod.fst ∧
      k1 ≠ k2 ∧
      ordinalColor ((pieGroups xF yF rows).map Prod.fst) k1
        = ordinalColor ((pieGroups xF yF rows).map Prod.fst) k2 := by
  have hnd : ((pieGroups xF yF rows).map Prod.fst).Nodup := pieKeys_nodup xF yF rows
  have h0 : 0 < ((pieGroups xF yF rows).map Prod.fst).length := by omega
  refine ⟨((pieGroups xF yF rows).map Prod.fst).get ⟨0, h0⟩,
    ((pieGroups xF yF rows).map Prod.fst).get ⟨10, h⟩,
    List.get_mem _ 0 h0, List.get_mem _ 10 h, ?_, ?_⟩
  · intro he
    have h2 := (List.Nodup.get_inj_iff hnd).mp he
    simp [Fin.ext_iff] at h2
  · unfold ordinalColor
    rw [indexOf_get_of_nodup hnd ⟨0, h0⟩, indexOf_get_of_nodup hnd ⟨10, h⟩]
    norm_num [schemeCategory10]

/-- Witness for C10: eleven distinct categories force a colour
collision. -/
theorem c10_pie_colors_cycle_witness :
    10 < ((pieGroups "x" "y" elevenRows).map Prod.fst).length ∧
    (∃ k1 k2,
      k1 ∈ (pieGroups "x" "y" elevenRows).map Prod.fst ∧
      k2 ∈ (pieGroups "x" "y" elevenRows).map Prod.fst ∧
      k1 ≠ k2 ∧
      ordinalColor ((pieGroups "x" "y" elevenRows).map Prod.fst) k1
        = ordinalColor ((pieGroups "x" "y" elevenRows).map Prod.fst) k2) :=
  ⟨by decide, c10_pie_colors_cycle "x" "y" elevenRows (by decide)⟩

/-! The y-scale nice algorithm. -/

/-- Powers of ten are positive. -/
theorem pow10_pos (p : ℤ) : 0 < pow10 p := by
  unfold pow10
  split
  · positivity
  · positivity

/-- The tick increment is always positive: a positive factor times a
positive power of ten. -/
theorem tickIncr_pos (start stop : ℚ) (count : ℕ) : 0 < tickIncr start stop count := by
  unfold tickIncr
  refine mul_pos ?_ (pow10_pos _)
  split
  · norm_num
  · split
    · norm_num
    · split
      · norm_num
      · norm_num

/-- Rounding zero down to a multiple of any increment gives zero. -/
theorem ratFloorMul_zero (q : ℚ) : ratFloorMul 0 q = 0 := by
  simp [ratFloorMul]

/-- Rounding up to a multiple of a positive increment does not
decrease. -/
theorem le_ratCeilMul (a q : ℚ) (h : 0 < q) : a ≤ ratCeilMul a q := by
  unfold ratCeilMul
  calc a = (a / q) * q := (div_mul_cancel₀ a (ne_of_gt h)).symm
  _ ≤ (⌈a / q⌉ : ℚ) * q := mul_le_mul_of_nonneg_right (Int.le_ceil _) h.le

/-- Invariant of the nice loop started on the domain [0, m] with
0 < stop: the lower working bound stays at 0 forever, and the upper
bound never drops below m, so the loop's result is (0, something ≥ m)
(also when the fuel runs out and the original domain (0, d1) is
returned). -/
theorem niceLoop_lower (m : ℚ) (fuel : ℕ) :
    ∀ (d1 stop : ℚ) (pres : Option ℚ), 0 < stop → m ≤ stop → m ≤ d1 →
      (niceLoop fuel 0 d1 0 stop false pres).1 = 0 ∧
      m ≤ (niceLoop fuel 0 d1 0 stop false pres).2 := by
  induction fuel with
  | zero =>
      intro d1 stop pres _ _ h3
      exact ⟨rfl, h3⟩
  | succ n ih =>
      intro d1 stop pres h1 h2 h3
      rw [niceLoop]
      rw [if_neg (not_le.mpr h1)]
      by_cases hp : pres = some (tickIncr 0 stop 10)
      · rw [if_pos hp]
        exact ⟨rfl, h2⟩
      · rw [if_neg hp, ratFloorMul_zero]
        have hq := tickIncr_pos 0 stop 10
        exact ih d1 (ratCeilMul stop (tickIncr 0 stop 10)) (some (tickIncr 0 stop 10))
          (lt_of_lt_of_le h1 (le_ratCeilMul stop _ hq))
          (le_trans h2 (le_ratCeilMul stop _ hq)) h3

/-- Nicing the domain [0, m] for m ≥ 0 keeps the lower bound at exactly
0 and never lowers the upper bound below m. -/
theorem niceDomain_zero_max (m : ℚ) (hm : 0 ≤ m) :
    (niceDomain 0 m).1 = 0 ∧ m ≤ (niceDomain 0 m).2 := by
  rcases lt_or_eq_of_le hm with hl | he
  · unfold niceDomain
    rw [if_neg (not_lt.mpr hm), if_pos hl]
    exact niceLoop_lower m 10 m m none hl le_rfl le_rfl
  · rw [← he]
    unfold niceDomain
    rw [if_neg (lt_irrefl 0), if_neg (lt_irrefl 0)]
    exact ⟨rfl, le_rfl⟩

/-- C6 counterexample: a valid all-negative series.  For the single
filtered y value -5.3, the y scale is built on [0, -5.3]; nicing yields
the decreasing domain (0, -5.5).  Its numerically smaller endpoint is
-5.5, not 0, and its niced far endpoint -5.5 is strictly below the
observed maximum -5.3 — so on this input the claim fails under either
reading of "domain minimum"/"maximum". -/
theorem c6_negative_max_counterexample :
    yValuesOf "x" "y" [rowNeg] = [(-53 : ℚ)/10] ∧
    yScaleDomain "x" "y" [rowNeg] = (0, (-11 : ℚ)/2) ∧
    (yScaleDomain "x" "y" [rowNeg]).2 < (yScaleDomain "x" "y" [rowNeg]).1 ∧
    (yScaleDomain "x" "y" [rowNeg]).2 ≠ 0 ∧
    (yScaleDomain "x" "y" [rowNeg]).2 < d3Max (yValuesOf "x" "y" [rowNeg]) := by
  decide

/-- C6 (amended): for both line and bar charts (which build the y scale
identically), for every non-empty filtered series whose observed maximum
is non-negative, the niced y domain starts at exactly 0 and its niced
maximum is at least the observed maximum. -/
theorem c6_y_domain_nonneg_max (xF yF : String) (rows : List Row)
    (_hne : filteredRows xF yF rows ≠ [])
    (hm : 0 ≤ d3Max (yValuesOf xF yF rows)) :
    (yScaleDomain xF yF rows).1 = 0 ∧
    d3Max (yValuesOf xF yF rows) ≤ (yScaleDomain xF yF rows).2 := by
  unfold yScaleDomain
  exact niceDomain_zero_max _ hm

/-- Witness for C6 (amended) on the spec's example series [0, 5, 10]:
the niced domain is exactly (0, 10), so the minimum is 0 and the niced
maximum is ≥ 10. -/
theorem c6_y_domain_nonneg_max_witness :
    filteredRows "x" "y" rows3 ≠ [] ∧
    (0 : ℚ) ≤ d3Max (yValuesOf "x" "y" rows3) ∧
    yScaleDomain "x" "y" rows3 = (0, 10) ∧
    ((yScaleDomain "x" "y" rows3).1 = 0 ∧
      d3Max (yValuesOf "x" "y" rows3) ≤ (yScaleDomain "x" "y" rows3).2) :=
  ⟨by decide, by decide, by decide,
   c6_y_domain_nonneg_max "x" "y" rows3 (by decide) (by decide)⟩

example : strToNum? "abc" = none := by decide
example : strToNum? "5" = some 5 := by decide
example : jsToNum (Value.str "abc") = none := by decide
example : isValidRow "x" "y" [("x", Value.str "a"), ("y", Value.str "abc")] = false := by decide
example :
    pieGroups "cat" "v"
      [[("cat", Value.str "a"), ("v", Value.num 1)],
       [("cat", Value.str "a"), ("v", Value.num 2)],
       [("cat", Value.str "b"), ("v", Value.num 3)]]
      = [(Value.str "a", 3), (Value.str "b", 3)] := by decide

end DataManager
